import Mathlib

/-!
Verification of the cart state manager and catalog view of the
order-swift-commerce-cloud storefront demo.

The data model and operations below are a shallow embedding of the
TypeScript source:
  * `src/pages/Index.tsx` — cart state (`addToCart`, `removeFromCart`,
    `updateQuantity`) and the badge count (`cartItemsCount`);
  * the product-grid component — `mockProducts`, `filteredProducts`,
    `toggleFavorite`.
JavaScript numbers used as quantities are modelled as `Int` (the UI can
pass any number to `updateQuantity`); prices are the integer literals of
the mock list; ratings are decimal literals, modelled exactly as `ℚ`.
Optional TypeScript fields (`originalPrice?`, `isNew?`, `isSale?`) are
modelled as `Option Nat` / `Bool` with the absent value as default.
-/

namespace OrderSwift

/-- The `Product` interface of the product-grid component. -/
structure Product where
  id : String
  name : String
  price : Nat
  originalPrice : Option Nat := none
  image : String
  category : String
  rating : ℚ
  reviews : Nat
  isNew : Bool := false
  isSale : Bool := false
deriving DecidableEq, Repr

/-- A cart line item: `{ ...product, quantity }` — a product spread
together with a quantity, as built by `addToCart`. -/
structure CartItem extends Product where
  quantity : Int
deriving DecidableEq, Repr

/-- `addToCart` from `Index.tsx`: if an item with the product's id is
found, every matching item's quantity is incremented by the spread
`{ ...item, quantity: item.quantity + 1 }`; otherwise a fresh line item
with quantity 1 is appended. -/
def addToCart (prev : List CartItem) (product : Product) : List CartItem :=
  match prev.find? (fun item => item.id == product.id) with
  | some _ =>
      prev.map (fun item =>
        if item.id == product.id then
          { item with quantity := item.quantity + 1 }
        else item)
  | none => prev ++ [{ toProduct := product, quantity := 1 }]

/-- `removeFromCart` from `Index.tsx`: keep the items whose id differs
from `productId`. -/
def removeFromCart (prev : List CartItem) (productId : String) : List CartItem :=
  prev.filter (fun item => item.id != productId)

/-- `updateQuantity` from `Index.tsx`: a non-positive quantity delegates
to `removeFromCart`; otherwise every matching item's quantity is
overwritten in place. -/
def updateQuantity (prev : List CartItem) (productId : String)
    (quantity : Int) : List CartItem :=
  if quantity ≤ 0 then removeFromCart prev productId
  else
    prev.map (fun item =>
      if item.id == productId then { item with quantity := quantity }
      else item)

/-- The badge count passed to the header:
`cartItems.reduce((sum, item) => sum + item.quantity, 0)`. -/
def cartItemsCount (cartItems : List CartItem) : Int :=
  cartItems.foldl (fun sum item => sum + item.quantity) 0

/-- The static `mockProducts` list of the product-grid component. -/
def mockProducts : List Product :=
  [ { id := "1", name := "Premium Wireless Headphones", price := 24999,
      originalPrice := some 32999, image := "/placeholder.svg",
      category := "Electronics", rating := 4.8, reviews := 324,
      isSale := true },
    { id := "2", name := "Designer Leather Jacket", price := 49999,
      image := "/placeholder.svg", category := "Fashion", rating := 4.9,
      reviews := 156, isNew := true },
    { id := "3", name := "Smart Fitness Watch", price := 20999,
      originalPrice := some 24999, image := "/placeholder.svg",
      category := "Wearables", rating := 4.7, reviews := 892,
      isSale := true },
    { id := "4", name := "Minimalist Backpack", price := 7499,
      image := "/placeholder.svg", category := "Accessories",
      rating := 4.6, reviews := 203 },
    { id := "5", name := "Organic Coffee Beans", price := 1999,
      image := "/placeholder.svg", category := "Food", rating := 4.9,
      reviews := 445, isNew := true },
    { id := "6", name := "Wireless Charging Pad", price := 4099,
      originalPrice := some 5799, image := "/placeholder.svg",
      category := "Electronics", rating := 4.5, reviews := 127,
      isSale := true },
    { id := "7", name := "Artisan Ceramic Mug", price := 2699,
      image := "/placeholder.svg", category := "Home", rating := 4.8,
      reviews := 89 },
    { id := "8", name := "Professional Camera Lens", price := 74999,
      image := "/placeholder.svg", category := "Photography",
      rating := 4.9, reviews := 234, isNew := true } ]

/-- The category filter of the product-grid component:
`selectedCategory === 'All' ? mockProducts : mockProducts.filter(...)`. -/
def filteredProducts (selectedCategory : String) : List Product :=
  if selectedCategory == "All" then mockProducts
  else mockProducts.filter (fun p => p.category == selectedCategory)

/-- `toggleFavorite` of the product-grid component: delete the id from
the favorite set when present, insert it otherwise. -/
def toggleFavorite (prev : Finset String) (productId : String) :
    Finset String :=
  if productId ∈ prev then prev.erase productId else insert productId prev

/-- Cart states reachable from the empty cart by the three operations. -/
inductive Reachable : List CartItem → Prop
  | empty : Reachable []
  | add (p : Product) {c : List CartItem} :
      Reachable c → Reachable (addToCart c p)
  | remove (pid : String) {c : List CartItem} :
      Reachable c → Reachable (removeFromCart c pid)
  | update (pid : String) (q : Int) {c : List CartItem} :
      Reachable c → Reachable (updateQuantity c pid q)

/-- The cart invariant: line-item ids are pairwise distinct and every
quantity is positive. -/
def CartInv (c : List CartItem) : Prop :=
  (c.map (fun item => item.id)).Nodup ∧ ∀ item ∈ c, 0 < item.quantity

/-- The first product of the mock catalog, used as a concrete test input. -/
def firstProduct : Product :=
  { id := "1", name := "Premium Wireless Headphones", price := 24999,
    originalPrice := some 32999, image := "/placeholder.svg",
    category := "Electronics", rating := 4.8, reviews := 324,
    isSale := true }

/-- The second product of the mock catalog, used as a concrete test input. -/
def secondProduct : Product :=
  { id := "2", name := "Designer Leather Jacket", price := 49999,
    image := "/placeholder.svg", category := "Fashion", rating := 4.9,
    reviews := 156, isNew := true }

/-- A one-item demo cart holding the first mock product. -/
def demoCart : List CartItem :=
  [{ toProduct := firstProduct, quantity := 1 }]

/-- A two-item demo cart holding the first two mock products. -/
def demoCart2 : List CartItem :=
  [{ toProduct := firstProduct, quantity := 1 },
   { toProduct := secondProduct, quantity := 3 }]

/-! ### Helper lemmas about the list operations of the cart -/

/-- Mapping a conditional update over a list with no matching id leaves
the list unchanged. -/
lemma map_if_of_forall_ne (l : List CartItem) (pid : String)
    (f : CartItem → CartItem) (h : ∀ x ∈ l, x.id ≠ pid) :
    l.map (fun item => if item.id == pid then f item else item) = l := by
  induction l with
  | nil => rfl
  | cons a t ih =>
    have ha : ¬ ((a.id == pid) = true) := by
      simpa [beq_iff_eq] using h a (List.mem_cons_self a t)
    simp only [List.map_cons, if_neg ha]
    rw [ih fun x hx => h x (List.mem_cons_of_mem a hx)]

/-- On a cart with pairwise-distinct ids, mapping a conditional update
keyed on the id found at position `j` rewrites exactly position `j`. -/
lemma map_if_eq_set (l : List CartItem) (pid : String)
    (f : CartItem → CartItem) (hnd : (l.map (fun item => item.id)).Nodup)
    (j : ℕ) (hj : j < l.length) (hid : (l.get ⟨j, hj⟩).id = pid) :
    l.map (fun item => if item.id == pid then f item else item)
      = l.set j (f (l.get ⟨j, hj⟩)) := by
  induction l generalizing j with
  | nil => exact absurd hj (by simp)
  | cons a t ih =>
    rw [List.map_cons, List.nodup_cons] at hnd
    cases j with
    | zero =>
      have hid0 : a.id = pid := hid
      have htail : ∀ x ∈ t, x.id ≠ pid := by
        intro x hx hxp
        exact hnd.1 (by
          rw [hid0, ← hxp]
          exact List.mem_map_of_mem (fun item => item.id) hx)
      simp only [List.map_cons, if_pos (beq_iff_eq.mpr hid0)]
      rw [map_if_of_forall_ne t pid f htail]
      rfl
    | succ j =>
      have hj' : j < t.length := Nat.lt_of_succ_lt_succ hj
      have hidt : (t.get ⟨j, hj'⟩).id = pid := hid
      have hane : ¬ ((a.id == pid) = true) := by
        intro hc
        exact hnd.1 (by
          rw [beq_iff_eq.mp hc, ← hidt]
          exact List.mem_map_of_mem (fun item => item.id)
            (List.get_mem t j hj'))
      simp only [List.map_cons, if_neg hane]
      rw [ih hnd.2 j hj' hidt]
      rfl

/-- Filtering out an id that no element carries leaves the list
unchanged. -/
lemma filter_ne_of_not_mem (l : List CartItem) (pid : String)
    (h : ∀ x ∈ l, x.id ≠ pid) :
    l.filter (fun item => item.id != pid) = l :=
  List.filter_eq_self.mpr fun a ha => bne_iff_ne.mpr (h a ha)

/-- On a cart with pairwise-distinct ids, filtering out the id found at
position `j` deletes exactly position `j`. -/
lemma filter_ne_eq_eraseIdx (l : List CartItem) (pid : String)
    (hnd : (l.map (fun item => item.id)).Nodup)
    (j : ℕ) (hj : j < l.length) (hid : (l.get ⟨j, hj⟩).id = pid) :
    l.filter (fun item => item.id != pid) = l.eraseIdx j := by
  induction l generalizing j with
  | nil => exact absurd hj (by simp)
  | cons a t ih =>
    rw [List.map_cons, List.nodup_cons] at hnd
    cases j with
    | zero =>
      have hid0 : a.id = pid := hid
      have htail : ∀ x ∈ t, x.id ≠ pid := by
        intro x hx hxp
        exact hnd.1 (by
          rw [hid0, ← hxp]
          exact List.mem_map_of_mem (fun item => item.id) hx)
      have ha : (a.id != pid) = false := by
        simp [bne_iff_ne, hid0]
      rw [List.filter_cons, ha]
      simpa [List.eraseIdx] using filter_ne_of_not_mem t pid htail
    | succ j =>
      have hj' : j < t.length := Nat.lt_of_succ_lt_succ hj
      have hidt : (t.get ⟨j, hj'⟩).id = pid := hid
      have hane : (a.id != pid) = true := by
        apply bne_iff_ne.mpr
        intro hc
        exact hnd.1 (by
          rw [hc, ← hidt]
          exact List.mem_map_of_mem (fun item => item.id)
            (List.get_mem t j hj'))
      rw [List.filter_cons, hane]
      simp only [List.eraseIdx, if_true]
      rw [ih hnd.2 j hj' hidt]

/-- When some line item matches the product's id, `addToCart` takes the
increment-by-map branch. -/
lemma addToCart_of_mem (cart : List CartItem) (p : Product)
    (h : ∃ item ∈ cart, item.id = p.id) :
    addToCart cart p
      = cart.map (fun item =>
          if item.id == p.id then
            { item with quantity := item.quantity + 1 }
          else item) := by
  unfold addToCart
  cases hf : cart.find? (fun item => item.id == p.id) with
  | some it => rfl
  | none =>
    rw [List.find?_eq_none] at hf
    obtain ⟨it, hmem, hid⟩ := h
    exact absurd (beq_iff_eq.mpr hid) (hf it hmem)

/-- When no line item matches the product's id, `addToCart` appends a
fresh line item of quantity 1. -/
lemma addToCart_of_not_mem (cart : List CartItem) (p : Product)
    (h : ∀ item ∈ cart, item.id ≠ p.id) :
    addToCart cart p = cart ++ [{ toProduct := p, quantity := 1 }] := by
  unfold addToCart
  rw [List.find?_eq_none.mpr fun x hx => by
    simpa [beq_iff_eq] using h x hx]

/-- Folding quantities from any starting sum adds the list's quantity
sum to it. -/
lemma foldl_add_quantity (l : List CartItem) (n : Int) :
    l.foldl (fun sum item => sum + item.quantity) n
      = n + (l.map (fun item => item.quantity)).sum := by
  induction l generalizing n with
  | nil => simp
  | cons a t ih => simp [ih, add_assoc]

/-- The conditional quantity updates of `addToCart` and
`updateQuantity` never change an item's id, so the id list of a mapped
cart is unchanged. -/
lemma map_ids_of_id_preserving (l : List CartItem)
    (f : CartItem → CartItem) (hf : ∀ item, (f item).id = item.id) :
    (l.map f).map (fun item => item.id) = l.map (fun item => item.id) := by
  rw [List.map_map]
  exact List.map_congr_left fun a _ => hf a

/-- `addToCart` preserves the cart invariant. -/
lemma cartInv_addToCart (c : List CartItem) (p : Product)
    (h : CartInv c) : CartInv (addToCart c p) := by
  by_cases hmem : ∃ item ∈ c, item.id = p.id
  · rw [addToCart_of_mem c p hmem]
    constructor
    · rw [map_ids_of_id_preserving]
      · exact h.1
      · intro item
        by_cases hc : (item.id == p.id) = true <;> simp [hc]
    · intro item' hmem'
      obtain ⟨item, hit, rfl⟩ := List.mem_map.mp hmem'
      have hq := h.2 item hit
      by_cases hc : (item.id == p.id) = true <;> simp [hc] <;> omega
  · push_neg at hmem
    rw [addToCart_of_not_mem c p hmem]
    constructor
    · rw [List.map_append]
      refine h.1.append (by simp) ?_
      intro x hx hx2
      simp only [List.map_cons, List.map_nil, List.mem_singleton] at hx2
      obtain ⟨item, hit, hid⟩ := List.mem_map.mp hx
      exact hmem item hit (by rw [hid, hx2])
    · intro item hit
      rcases List.mem_append.mp hit with hl | hr
      · exact h.2 item hl
      · simp only [List.mem_singleton] at hr
        rw [hr]
        norm_num


/-- `removeFromCart` preserves the cart invariant. -/
lemma cartInv_removeFromCart (c : List CartItem) (pid : String)
    (h : CartInv c) : CartInv (removeFromCart c pid) := by
  constructor
  · exact ((List.filter_sublist c).map (fun item => item.id)).nodup h.1
  · intro item hit
    exact h.2 item (List.mem_of_mem_filter hit)

/-- `updateQuantity` preserves the cart invariant. -/
lemma cartInv_updateQuantity (c : List CartItem) (pid : String)
    (q : Int) (h : CartInv c) : CartInv (updateQuantity c pid q) := by
  unfold updateQuantity
  by_cases hq : q ≤ 0
  · rw [if_pos hq]
    exact cartInv_removeFromCart c pid h
  · rw [if_neg hq]
    constructor
    · rw [map_ids_of_id_preserving]
      · exact h.1
      · intro item
        by_cases hc : (item.id == pid) = true <;> simp [hc]
    · intro item' hmem'
      obtain ⟨item, hit, rfl⟩ := List.mem_map.mp hmem'
      have hqi := h.2 item hit
      by_cases hc : (item.id == pid) = true <;> simp [hc] <;> omega

/-- `List.get` transported along an equality of lists. -/
lemma get_congr (l l' : List CartItem) (hll : l = l') (j : ℕ)
    (hj : j < l.length) (hj' : j < l'.length) :
    l.get ⟨j, hj⟩ = l'.get ⟨j, hj'⟩ := by
  subst hll
  rfl

/-- `List.get` on a mapped list with an explicit bound on the original
list. -/
lemma get_map_bound (f : CartItem → CartItem) (l : List CartItem) (j : ℕ)
    (hj : j < l.length) (hj2 : j < (l.map f).length) :
    (l.map f).get ⟨j, hj2⟩ = f (l.get ⟨j, hj⟩) := by
  simp [List.get_eq_getElem, List.getElem_map]

/-! ### The claims -/

/-- **C1**: every cart state reachable from the empty cart by
`addToCart`, `removeFromCart` and `updateQuantity` has pairwise-distinct
line-item ids and only positive quantities, so a non-positive quantity
is never observable. -/
theorem C1_cart_invariant (c : List CartItem) (h : Reachable c) :
    CartInv c := by
  induction h with
  | empty => exact ⟨List.nodup_nil, by simp⟩
  | add p _ ih => exact cartInv_addToCart _ p ih
  | remove pid _ ih => exact cartInv_removeFromCart _ pid ih
  | update pid q _ ih => exact cartInv_updateQuantity _ pid q ih

/-- Witness for C1 at the concrete reachable cart `addToCart [] firstProduct`. -/
theorem C1_cart_invariant_witness : CartInv (addToCart [] firstProduct) :=
  C1_cart_invariant _ (Reachable.add firstProduct Reachable.empty)

/-- **C2**: on a cart with pairwise-distinct ids, `addToCart` of a
product whose id sits at position `j` rewrites exactly position `j`,
incrementing its quantity by 1; when no line item matches, it appends a
fresh line item of quantity 1 at the end. -/
theorem C2_addToCart_spec (cart : List CartItem) (p : Product) :
    ((cart.map (fun item => item.id)).Nodup →
      ∀ j (hj : j < cart.length), (cart.get ⟨j, hj⟩).id = p.id →
        addToCart cart p
          = cart.set j
              { cart.get ⟨j, hj⟩ with
                  quantity := (cart.get ⟨j, hj⟩).quantity + 1 })
    ∧ ((∀ item ∈ cart, item.id ≠ p.id) →
        addToCart cart p = cart ++ [{ toProduct := p, quantity := 1 }]) := by
  constructor
  · intro hnd j hj hid
    rw [addToCart_of_mem cart p ⟨cart.get ⟨j, hj⟩, List.get_mem cart j hj, hid⟩]
    exact map_if_eq_set cart p.id _ hnd j hj hid
  · exact addToCart_of_not_mem cart p

/-- Witness for C2 on the one-item demo cart: increment in place for
the present id, append for an absent id. -/
theorem C2_addToCart_spec_witness :
    addToCart demoCart firstProduct
      = demoCart.set 0
          { demoCart.get ⟨0, by decide⟩ with
              quantity := (demoCart.get ⟨0, by decide⟩).quantity + 1 }
    ∧ addToCart demoCart secondProduct
        = demoCart ++ [{ toProduct := secondProduct, quantity := 1 }] :=
  ⟨(C2_addToCart_spec demoCart firstProduct).1 (by decide) 0 (by decide)
      (by decide),
   (C2_addToCart_spec demoCart secondProduct).2 (by decide)⟩

/-- **C3**: `updateQuantity` with a non-positive quantity equals
`removeFromCart`; with a positive quantity it overwrites, on a cart with
pairwise-distinct ids, exactly the matching position's quantity field,
leaving order unchanged. -/
theorem C3_updateQuantity_spec (cart : List CartItem) (pid : String)
    (q : Int) :
    (q ≤ 0 → updateQuantity cart pid q = removeFromCart cart pid)
    ∧ (0 < q → (cart.map (fun item => item.id)).Nodup →
        ∀ j (hj : j < cart.length), (cart.get ⟨j, hj⟩).id = pid →
          updateQuantity cart pid q
            = cart.set j { cart.get ⟨j, hj⟩ with quantity := q }) := by
  constructor
  · intro hq
    unfold updateQuantity
    rw [if_pos hq]
  · intro hq hnd j hj hid
    unfold updateQuantity
    rw [if_neg (not_le.mpr hq)]
    exact map_if_eq_set cart pid _ hnd j hj hid

/-- Witness for C3 on the one-item demo cart at quantities 0 and 5. -/
theorem C3_updateQuantity_spec_witness :
    updateQuantity demoCart "1" 0 = removeFromCart demoCart "1"
    ∧ updateQuantity demoCart "1" 5
        = demoCart.set 0 { demoCart.get ⟨0, by decide⟩ with quantity := 5 } :=
  ⟨(C3_updateQuantity_spec demoCart "1" 0).1 (by decide),
   (C3_updateQuantity_spec demoCart "1" 5).2 (by decide) (by decide) 0
      (by decide) (by decide)⟩

/-- **C4**: on a cart with pairwise-distinct ids, `removeFromCart` of an
id present at position `j` deletes exactly position `j`, keeping every
other item in order; removing an absent id returns the cart exactly. -/
theorem C4_removeFromCart_spec (cart : List CartItem) (pid : String) :
    ((cart.map (fun item => item.id)).Nodup →
      ∀ j (hj : j < cart.length), (cart.get ⟨j, hj⟩).id = pid →
        removeFromCart cart pid = cart.eraseIdx j)
    ∧ ((∀ item ∈ cart, item.id ≠ pid) → removeFromCart cart pid = cart) := by
  constructor
  · intro hnd j hj hid
    exact filter_ne_eq_eraseIdx cart pid hnd j hj hid
  · exact filter_ne_of_not_mem cart pid

/-- Witness for C4 on the two-item demo cart: deletion at position 0,
no-op for the absent id "9". -/
theorem C4_removeFromCart_spec_witness :
    removeFromCart demoCart2 "1" = demoCart2.eraseIdx 0
    ∧ removeFromCart demoCart2 "9" = demoCart2 :=
  ⟨(C4_removeFromCart_spec demoCart2 "1").1 (by decide) 0 (by decide)
      (by decide),
   (C4_removeFromCart_spec demoCart2 "9").2 (by decide)⟩

/-- **C5**: the badge count is the sum of the quantities of the current
line items, for every cart (in particular every reachable one);
`cartItemsCount` reads only the current list, with no separate
counter. -/
theorem C5_cartItemsCount_spec (cart : List CartItem) :
    cartItemsCount cart = (cart.map (fun item => item.quantity)).sum := by
  simpa using foldl_add_quantity cart 0

/-- **C6**: from the empty cart, adding the first product yields one
line item of quantity 1; adding it again yields a single line item of
quantity 2; setting its quantity to 0 empties the cart. -/
theorem C6_scenario :
    addToCart [] firstProduct = [{ toProduct := firstProduct, quantity := 1 }]
    ∧ addToCart (addToCart [] firstProduct) firstProduct
        = [{ toProduct := firstProduct, quantity := 2 }]
    ∧ updateQuantity (addToCart (addToCart [] firstProduct) firstProduct)
        firstProduct.id 0 = [] :=
  ⟨rfl, rfl, rfl⟩

/-- **C7**: filtering with "All" returns the full static product list in
order; filtering with any other category returns a sublist (order
preserved) holding exactly the products whose category equals the
selected one, under case-sensitive string equality. -/
theorem C7_filteredProducts_spec (c : String) :
    (c = "All" → filteredProducts c = mockProducts)
    ∧ (c ≠ "All" →
        (filteredProducts c).Sublist mockProducts
        ∧ ∀ p : Product,
            p ∈ filteredProducts c ↔ p ∈ mockProducts ∧ p.category = c) := by
  constructor
  · intro h
    unfold filteredProducts
    rw [if_pos (beq_iff_eq.mpr h)]
  · intro h
    have hb : ¬ ((c == "All") = true) := fun hc => h (beq_iff_eq.mp hc)
    unfold filteredProducts
    rw [if_neg hb]
    refine ⟨List.filter_sublist mockProducts, ?_⟩
    intro p
    simp [List.mem_filter, beq_iff_eq]

/-- Witness for C7 at the categories "All" and "Electronics". -/
theorem C7_filteredProducts_spec_witness :
    filteredProducts "All" = mockProducts
    ∧ (filteredProducts "Electronics").Sublist mockProducts :=
  ⟨(C7_filteredProducts_spec "All").1 rfl,
   ((C7_filteredProducts_spec "Electronics").2 (by decide)).1⟩

/-- **C8**: `toggleFavorite` flips the membership of the toggled id,
leaves every other id's membership unchanged, and toggling twice
restores the original favorite set. -/
theorem C8_toggleFavorite_spec (S : Finset String) (x : String) :
    (x ∈ toggleFavorite S x ↔ x ∉ S)
    ∧ (∀ y : String, y ≠ x → (y ∈ toggleFavorite S x ↔ y ∈ S))
    ∧ toggleFavorite (toggleFavorite S x) x = S := by
  by_cases hx : x ∈ S
  · refine ⟨?_, ?_, ?_⟩
    · unfold toggleFavorite
      rw [if_pos hx]
      simp [hx]
    · intro y hy
      unfold toggleFavorite
      rw [if_pos hx]
      simp [Finset.mem_erase, hy]
    · unfold toggleFavorite
      rw [if_pos hx, if_neg (Finset.not_mem_erase x S)]
      exact Finset.insert_erase hx
  · refine ⟨?_, ?_, ?_⟩
    · unfold toggleFavorite
      rw [if_neg hx]
      simp [hx]
    · intro y hy
      unfold toggleFavorite
      rw [if_neg hx]
      simp [Finset.mem_insert, hy]
    · unfold toggleFavorite
      rw [if_neg hx, if_pos (Finset.mem_insert_self x S)]
      exact Finset.erase_insert hx

/-- Witness for C8 at the favorite set `{"1"}` and the toggled id
"2". -/
theorem C8_toggleFavorite_spec_witness :
    (("2" : String) ∈ toggleFavorite {"1"} "2"
        ↔ ("2" : String) ∉ ({"1"} : Finset String))
    ∧ (("1" : String) ∈ toggleFavorite {"1"} "2"
        ↔ ("1" : String) ∈ ({"1"} : Finset String))
    ∧ toggleFavorite (toggleFavorite {"1"} "2") "2" = {"1"} :=
  ⟨(C8_toggleFavorite_spec {"1"} "2").1,
   (C8_toggleFavorite_spec {"1"} "2").2.1 "1" (by decide),
   (C8_toggleFavorite_spec {"1"} "2").2.2⟩

/-- **C9**: every operation is total (in this embedding all operations
are Lean functions, defined on every input); `addToCart` always returns
the updated sequence (same length or one longer), and an absent product
id makes `removeFromCart` and `updateQuantity` no-ops, never errors. -/
theorem C9_totality_noop (cart : List CartItem) (p : Product)
    (pid : String) (q : Int) (habs : ∀ item ∈ cart, item.id ≠ pid) :
    ((addToCart cart p).length = cart.length
      ∨ (addToCart cart p).length = cart.length + 1)
    ∧ removeFromCart cart pid = cart
    ∧ updateQuantity cart pid q = cart := by
  refine ⟨?_, filter_ne_of_not_mem cart pid habs, ?_⟩
  · by_cases hmem : ∃ item ∈ cart, item.id = p.id
    · left
      rw [addToCart_of_mem cart p hmem, List.length_map]
    · right
      push_neg at hmem
      rw [addToCart_of_not_mem cart p hmem]
      simp
  · unfold updateQuantity
    by_cases hq : q ≤ 0
    · rw [if_pos hq]
      exact filter_ne_of_not_mem cart pid habs
    · rw [if_neg hq]
      exact map_if_of_forall_ne cart pid _ habs

/-- Witness for C9 on the one-item demo cart with the absent id "9". -/
theorem C9_totality_noop_witness :
    ((addToCart demoCart firstProduct).length = demoCart.length
      ∨ (addToCart demoCart firstProduct).length = demoCart.length + 1)
    ∧ removeFromCart demoCart "9" = demoCart
    ∧ updateQuantity demoCart "9" 5 = demoCart :=
  C9_totality_noop demoCart firstProduct "9" 5 (by decide)

/-- **C10**: when `addToCart` is called with a product whose id already
matches some line item, the cart keeps its length, each position with
the matching id keeps every stored field except the incremented
quantity (the passed product's other attributes are ignored), and each
other position is completely unchanged. -/
theorem C10_addToCart_frame (cart : List CartItem) (p : Product)
    (h : ∃ item ∈ cart, item.id = p.id) :
    (addToCart cart p).length = cart.length
    ∧ ∀ j (hj : j < cart.length) (hj2 : j < (addToCart cart p).length),
        (addToCart cart p).get ⟨j, hj2⟩
          = if (cart.get ⟨j, hj⟩).id = p.id
            then { cart.get ⟨j, hj⟩ with
                     quantity := (cart.get ⟨j, hj⟩).quantity + 1 }
            else cart.get ⟨j, hj⟩ := by
  have heq := addToCart_of_mem cart p h
  constructor
  · rw [heq, List.length_map]
  · intro j hj hj2
    have hlen : j <
        (cart.map (fun item =>
          if item.id == p.id then
            { item with quantity := item.quantity + 1 }
          else item)).length := by
      rw [List.length_map]
      exact hj
    rw [get_congr _ _ heq j hj2 hlen, get_map_bound _ cart j hj hlen]
    by_cases hc : (cart.get ⟨j, hj⟩).id = p.id <;> simp [hc]

/-- Witness for C10 on the two-item demo cart with the first product:
length preserved and the non-matching position 1 unchanged. -/
theorem C10_addToCart_frame_witness :
    (addToCart demoCart2 firstProduct).length = demoCart2.length
    ∧ (addToCart demoCart2 firstProduct).get ⟨1, by decide⟩
        = if (demoCart2.get ⟨1, by decide⟩).id = firstProduct.id
          then { demoCart2.get ⟨1, by decide⟩ with
                   quantity := (demoCart2.get ⟨1, by decide⟩).quantity + 1 }
          else demoCart2.get ⟨1, by decide⟩ :=
  ⟨(C10_addToCart_frame demoCart2 firstProduct (by decide)).1,
   (C10_addToCart_frame demoCart2 firstProduct (by decide)).2 1 (by decide)
      (by decide)⟩

end OrderSwift
